import Mathlib

/-!
Verification development for the search job composition engine
(internal/search/job/job.go).

The Go source is shallowly embedded: the query compiler (ToSearchJob,
jobMode, toAndJob, toOrJob, toPatternExpressionJob, ToEvaluateJob,
FromExpandedPlan, toRepoOptions, toFeatures) is translated into pure
Lean functions over an explicit model of the parsed query and the
search inputs.  Helpers of this repository that are not part of the
provided source tree (the query accessor package, ToTextPatternInfo,
ComputeResultTypes, the combinator constructors, the searcher service)
are modelled from the specification; each such definition carries a
doc comment starting with "Modelled from the spec:".

Go's pointer mutation of jargs.SearchInputs is made explicit: every
compilation function returns the (possibly updated) SearchInputs next
to the job it builds.  The process-global sub-repository permission
checker is passed as an explicit boolean parameter, matching the
spec's design note that global state consulted during compilation is
passed as an explicit immutable parameter.
-/

namespace SearchJob

/-- query.SearchType: the pattern interpretation requested for a query. -/
inductive SearchType where
  | literal
  | regexp
  | structural
deriving DecidableEq, Repr

/-- search.Protocol: how results are delivered to the caller. -/
inductive Protocol where
  | streaming
  | batch
deriving DecidableEq, Repr

/-- query.YesNoOnly values, used for the index:, fork: and archived: fields. -/
inductive YesNoOnly where
  | yes
  | no
  | only
deriving DecidableEq, Repr

/-- query.RepoVisibility values for the visibility: field. -/
inductive RepoVisibility where
  | any
  | priv
  | public
deriving DecidableEq, Repr

/-- search.GlobalSearchMode, selecting the strategy for a repo search job. -/
inductive GlobalSearchMode where
  | defaultMode
  | zoektGlobalSearch
  | skipUnindexed
deriving DecidableEq, Repr

/-- search request kind sent to the indexed engine (text or symbol). -/
inductive SReq where
  | text
  | symbol
deriving DecidableEq, Repr

/-- One query.Parameter node: a field:value filter, possibly negated. -/
structure Param where
  field : String
  value : String
  negated : Bool
deriving DecidableEq, Repr

/-- query.Pattern / query.Operator node kinds appearing in a basic query's
pattern expression. -/
inductive PatKind where
  | and
  | or
  | concat
deriving DecidableEq, Repr

/-- The pattern part of a basic query: a tagged-variant recursive tree
(Pattern leaf, Operator over operands, or a Parameter in pattern position),
as the spec's design notes require. -/
inductive PatternExpr where
  | pattern (value : String)
  | op (kind : PatKind) (operands : List PatternExpr)
  | param (p : Param)
deriving Repr

/-- query.Basic: a basic query, i.e. a list of parameters together with an
optional pattern expression.  containsRefGlobs records whether the query's
repository revision syntax contains reference globs; the source computes it
with query.ContainsRefGlobs, which is not part of the provided tree, so it
is carried as a field (Modelled from the spec: the Repo Pager tracks whether
the candidate set contains repository reference globs). -/
structure Basic where
  parameters : List Param
  pattern : Option PatternExpr
  containsRefGlobs : Bool
deriving Repr

/- Field name constants of the query package (modelled from the spec's field
allow-list and strategy descriptions; the query package is not under the
provided source tree). -/

def fieldRepo : String := "repo"
def fieldContext : String := "context"
def fieldType : String := "type"
def fieldDefault : String := ""
def fieldIndex : String := "index"
def fieldCount : String := "count"
def fieldTimeout : String := "timeout"
def fieldFork : String := "fork"
def fieldArchived : String := "archived"
def fieldVisibility : String := "visibility"
def fieldCase : String := "case"
def fieldRepoHasFile : String := "repohasfile"
def fieldRepoHasCommitAfter : String := "repohascommitafter"
def fieldPatternType : String := "patterntype"
def fieldSelect : String := "select"
def fieldFile : String := "file"
def fieldLang : String := "lang"
def fieldAfter : String := "after"
def fieldBefore : String := "before"

/-- Modelled from the spec: whether a field occurs in the query
(query.Basic.Exists). -/
def Basic.existsField (b : Basic) (f : String) : Bool :=
  b.parameters.any fun p => p.field = f

/-- Modelled from the spec: all values of a field (query.Q.StringValues). -/
def Basic.stringValues (b : Basic) (f : String) : List String :=
  (b.parameters.filter fun p => p.field = f && !p.negated).map Param.value

/-- Modelled from the spec: the first value of a field
(query.Q.StringValue); empty when the field is absent. -/
def Basic.stringValue (b : Basic) (f : String) : String :=
  ((b.stringValues f).head?).getD ""

mutual

/-- Modelled from the spec: render a pattern expression as the query's
pattern string (query.Basic.PatternString); a bare pattern is its own
value, operator operands are joined with spaces, parameters in pattern
position contribute nothing. -/
def exprString : PatternExpr → String
  | .pattern v => v
  | .param _ => ""
  | .op _ ops => joinParts ops

/-- Space-join of the rendered operands, skipping empty parts. -/
def joinParts : List PatternExpr → String
  | [] => ""
  | [pe] => exprString pe
  | pe :: rest =>
    let s := exprString pe
    let t := joinParts rest
    if s = "" then t else if t = "" then s else s ++ " " ++ t

end

/-- Modelled from the spec: the query's pattern as a string
(query.Basic.PatternString); empty when the query has no pattern. -/
def Basic.patternString (b : Basic) : String :=
  match b.pattern with
  | none => ""
  | some pe => exprString pe

/-- Modelled from the spec: parse a yes/no/only field value
(query.ParseYesNoOnly). -/
def parseYesNoOnly (s : String) : Option YesNoOnly :=
  if s = "yes" then some .yes
  else if s = "no" then some .no
  else if s = "only" then some .only
  else none

/-- Modelled from the spec: the query's index: value (query.Basic.Index),
defaulting to yes when absent or unparsable. -/
def Basic.indexValue (b : Basic) : YesNoOnly :=
  if b.existsField fieldIndex then (parseYesNoOnly (b.stringValue fieldIndex)).getD .yes
  else .yes

/-- Modelled from the spec: the query's fork: value (query.Q.Fork). -/
def Basic.forkValue (b : Basic) : Option YesNoOnly :=
  if b.existsField fieldFork then parseYesNoOnly (b.stringValue fieldFork) else none

/-- Modelled from the spec: the query's archived: value (query.Q.Archived). -/
def Basic.archivedValue (b : Basic) : Option YesNoOnly :=
  if b.existsField fieldArchived then parseYesNoOnly (b.stringValue fieldArchived) else none

/-- Modelled from the spec: case-sensitivity of the query
(query.Q.IsCaseSensitive): the case: field set to yes. -/
def Basic.isCaseSensitive (b : Basic) : Bool :=
  b.stringValue fieldCase = "yes"

/-- Modelled from the spec: positive and negated repo: filters of the query
(query.Q.Repositories). -/
def Basic.repositories (b : Basic) : List String × List String :=
  ((b.parameters.filter fun p => p.field = fieldRepo && !p.negated).map Param.value,
   (b.parameters.filter fun p => p.field = fieldRepo && p.negated).map Param.value)

/-- Modelled from the spec: whether the query has an explicit timeout:
(query.Q.Timeout is non-nil). -/
def Basic.hasTimeout (b : Basic) : Bool := b.existsField fieldTimeout

/-- Modelled from the spec: whether the query has an explicit count:
(query.Q.Count is non-nil). -/
def Basic.hasCount (b : Basic) : Bool := b.existsField fieldCount

/-- Modelled from the spec: the result limit of the query
(query.Q.MaxResults): the count: value when present, else the protocol
default limit. -/
def Basic.maxResults (b : Basic) (defaultLimit : Nat) : Nat :=
  match (b.stringValue fieldCount).toNat? with
  | some n => if b.hasCount then n else defaultLimit
  | none => defaultLimit

/-- Modelled from the spec: the select: field value of the query. -/
def Basic.selectValue (b : Basic) : String := b.stringValue fieldSelect

/-- Modelled from the spec (section 3, Deadline): the evaluation deadline,
derived from the timeout: clause when present, otherwise a larger cap when
count: asks to wait for everything, otherwise the protocol default
(search.TimeoutDuration). -/
def timeoutDuration (b : Basic) : Nat :=
  match (b.stringValue fieldTimeout).toNat? with
  | some t => t
  | none => if b.hasCount then 60 else 10

/-- result.Types: the bitset of requested result types.  The Go type is a
bit mask; here one boolean per bit, with the mask operations below. -/
structure ResultTypes where
  repo : Bool
  symbol : Bool
  diff : Bool
  commit : Bool
  file : Bool
  path : Bool
  structural : Bool
deriving DecidableEq, Repr

def ResultTypes.none : ResultTypes := ⟨false, false, false, false, false, false, false⟩

def tRepo : ResultTypes := { ResultTypes.none with repo := true }
def tSymbol : ResultTypes := { ResultTypes.none with symbol := true }
def tDiff : ResultTypes := { ResultTypes.none with diff := true }
def tCommit : ResultTypes := { ResultTypes.none with commit := true }
def tFile : ResultTypes := { ResultTypes.none with file := true }
def tPath : ResultTypes := { ResultTypes.none with path := true }
def tStructural : ResultTypes := { ResultTypes.none with structural := true }

/-- Bitwise union of two result type masks (Go's r | t). -/
def ResultTypes.union (r t : ResultTypes) : ResultTypes :=
  ⟨r.repo || t.repo, r.symbol || t.symbol, r.diff || t.diff, r.commit || t.commit,
   r.file || t.file, r.path || t.path, r.structural || t.structural⟩

/-- result.Types.Has: whether the mask shares a bit with t (r & t != 0). -/
def ResultTypes.has (r t : ResultTypes) : Bool :=
  (r.repo && t.repo) || (r.symbol && t.symbol) || (r.diff && t.diff) ||
  (r.commit && t.commit) || (r.file && t.file) || (r.path && t.path) ||
  (r.structural && t.structural)

/-- result.Types.Without: clear the bits of t in r (r &^ t). -/
def ResultTypes.without (r t : ResultTypes) : ResultTypes :=
  ⟨r.repo && !t.repo, r.symbol && !t.symbol, r.diff && !t.diff, r.commit && !t.commit,
   r.file && !t.file, r.path && !t.path, r.structural && !t.structural⟩

/-- Whether the mask is the zero mask (Go's r == 0). -/
def ResultTypes.isZero (r : ResultTypes) : Bool :=
  !(r.repo || r.symbol || r.diff || r.commit || r.file || r.path || r.structural)

/-- Modelled from the spec: map one type: field value to its result type
bit. -/
def typeFromString (s : String) : ResultTypes :=
  if s = "repo" then tRepo
  else if s = "symbol" then tSymbol
  else if s = "diff" then tDiff
  else if s = "commit" then tCommit
  else if s = "file" then tFile
  else if s = "path" then tPath
  else ResultTypes.none

/-- Modelled from the spec (section 4.1): determine the result types
requested from the explicit type: field values and the pattern type
(search.ComputeResultTypes).  A structural pattern requests structural
results; with no type: fields the default text result types (file, path
and repo) are requested. -/
def computeResultTypes (types : List String) (pattern : String) (st : SearchType) : ResultTypes :=
  if st = .structural && pattern ≠ "" then tStructural
  else if types.isEmpty then (tFile.union tPath).union tRepo
  else types.foldl (fun acc s => acc.union (typeFromString s)) ResultTypes.none

/-- search.Features, produced by toFeatures from the feature flag set. -/
structure Features where
  contentBasedLangFilters : Bool
deriving DecidableEq, Repr

/-- featureflag.FlagSet, modelled as an association list; a nil set is
Option.none (toFeatures warns and substitutes an empty set). -/
def FlagSet := List (String × Bool)
deriving Repr

/-- run.SearchInputs: the resolved search parameters handed to the
compiler.  The run package is not under the provided source tree; the
fields are the ones job.go reads (Modelled from the spec: pattern type,
default result-count limit, protocol mode, feature flags, user
settings). -/
structure SearchInputs where
  patternType : SearchType
  protocol : Protocol
  onSourcegraphDotCom : Bool
  defaultLimit : Nat
  searchIncludeForks : Option Bool
  searchIncludeArchived : Option Bool
  flags : Option FlagSet
deriving Repr

/-- toFeatures: read the feature flags consulted during compilation; a nil
flag set falls back to defaults (the source additionally bumps a metric and
logs a warning, side effects outside the model). -/
def toFeatures (flags : Option FlagSet) : Features :=
  match flags with
  | Option.none => { contentBasedLangFilters := false }
  | some fs => { contentBasedLangFilters := ((fs.lookup "search-content-based-lang-detection").getD false) }

/-- search.TextPatternInfo, the common pattern representation.  Modelled
from the spec (section 6): pattern string, case-sensitivity, regex and
structural flags, plus the fields job.go reads back (index:, select:,
file match limit). -/
structure TextPatternInfo where
  pattern : String
  isStructuralPat : Bool
  isRegExp : Bool
  isCaseSensitive : Bool
  fileMatchLimit : Nat
  index : YesNoOnly
  select : String
deriving DecidableEq, Repr

/-- Modelled from the spec: search.ToTextPatternInfo builds the common
pattern representation from the basic query, the computed result types and
the protocol; the structural flag mirrors the structural result type bit,
the file match limit is the query's count: or the protocol default. -/
def toTextPatternInfo (b : Basic) (rt : ResultTypes) (defaultLimit : Nat) (st : SearchType) : TextPatternInfo :=
  { pattern := b.patternString
    isStructuralPat := rt.structural
    isRegExp := st = .regexp
    isCaseSensitive := b.isCaseSensitive
    fileMatchLimit := b.maxResults defaultLimit
    index := b.indexValue
    select := b.selectValue }

/-- search.RepoOptions: the immutable repository filter criteria computed
once per query (spec section 3).  The Dependencies field of the Go struct
is omitted: its accessor is not under the provided source tree and no
claim observes it. -/
structure RepoOptions where
  repoFilters : List String
  minusRepoFilters : List String
  caseSensitiveRepoFilters : Bool
  searchContextSpec : String
  onlyForks : Bool
  noForks : Bool
  onlyArchived : Bool
  noArchived : Bool
  visibility : RepoVisibility
  commitAfter : String
deriving DecidableEq, Repr

def RepoOptions.empty : RepoOptions :=
  ⟨[], [], false, "", false, false, false, false, .any, ""⟩

/-- Modelled from the spec: searchrepos.ExactlyOneRepo, whether the repo
filters pin down exactly one repository. -/
def exactlyOneRepo (repoFilters : List String) : Bool :=
  repoFilters.length = 1

/-- Modelled from the spec: query.ParseVisibility of the visibility: field
value, defaulting to any. -/
def parseVisibility (s : String) : RepoVisibility :=
  if s = "private" then .priv
  else if s = "public" then .public
  else .any

/-- toRepoOptions: compute the RepoOptions shared read-only by all leaves,
translated from the source.  fork and archived default to no unless exactly
one repo is searched or the user settings include them, and an explicit
fork:/archived: field overrides the default. -/
def toRepoOptions (b : Basic) (si : SearchInputs) : RepoOptions :=
  let (repoFilters, minusRepoFilters) := b.repositories
  let settingForks := si.searchIncludeForks.getD false
  let settingArchived := si.searchIncludeArchived.getD false
  let fork0 : YesNoOnly := if exactlyOneRepo repoFilters || settingForks then .yes else .no
  let fork := (b.forkValue).getD fork0
  let archived0 : YesNoOnly := if exactlyOneRepo repoFilters || settingArchived then .yes else .no
  let archived := (b.archivedValue).getD archived0
  let visibility := parseVisibility (b.stringValue fieldVisibility)
  let commitAfter := b.stringValue fieldRepoHasCommitAfter
  let searchContextSpec := b.stringValue fieldContext
  { repoFilters := repoFilters
    minusRepoFilters := minusRepoFilters
    caseSensitiveRepoFilters := false
    searchContextSpec := searchContextSpec
    onlyForks := fork = .only
    noForks := fork = .no
    onlyArchived := archived = .only
    noArchived := archived = .no
    visibility := visibility
    commitAfter := commitAfter }

/-- The job tree: leaves call one backend, combinators change streaming and
failure semantics (spec section 3).  Leaf payloads keep the scalar fields
job.go computes for them; backend handles (the zoekt streamer, searcher
URLs, the database) are process resources with no bearing on tree
structure and are not modelled. -/
inductive Job where
  | zoektGlobalSearch (typ : SReq) (fileMatchLimit : Nat) (selectPath : String) (includePrivate : Bool) (repoOpts : RepoOptions)
  | repoUniverseSymbolSearch (fileMatchLimit : Nat) (limit : Nat) (repoOpts : RepoOptions)
  | zoektRepoSubsetSearch (typ : SReq) (fileMatchLimit : Nat) (selectPath : String)
  | searcherTextSearch (useFullDeadline : Bool)
  | zoektSymbolSearch (fileMatchLimit : Nat) (selectPath : String)
  | searcherSymbolSearch (limit : Nat)
  | commitSearch (diff : Bool) (hasTimeFilter : Bool) (limit : Nat) (includeModifiedFiles : Bool) (repoOpts : RepoOptions)
  | structuralSearch (notSearcherOnly : Bool) (useIndex : YesNoOnly) (containsRefGlobs : Bool) (repoOpts : RepoOptions)
  | repoSearch (mode : GlobalSearchMode) (useFullDeadline : Bool) (repoOpts : RepoOptions)
  | computeExcludedRepos (repoOpts : RepoOptions)
  | repoPager (useIndex : YesNoOnly) (containsRefGlobs : Bool) (repoOpts : RepoOptions) (child : Job)
  | parallel (children : List Job)
  | andJob (children : List Job)
  | orJob (children : List Job)
  | priority (required : Job) (optional : Job)
  | limit (n : Nat) (child : Job)
  | timeoutJob (d : Nat) (child : Job)
  | selectJob (path : String) (child : Job)
  | filterJob (child : Job)
  | alert (child : Job)
  | noop
deriving Repr

/-- Modelled from the spec (section 4.2): the Parallel combinator
constructor. -/
def NewParallelJob (children : List Job) : Job := .parallel children

/-- Modelled from the spec (section 4.2): the And combinator constructor. -/
def NewAndJob (children : List Job) : Job := .andJob children

/-- Modelled from the spec (section 4.2): the Or combinator constructor. -/
def NewOrJob (children : List Job) : Job := .orJob children

/-- Modelled from the spec (section 4.2): the Priority combinator
constructor over the required and optional sets. -/
def NewPriorityJob (required optional : Job) : Job := .priority required optional

/-- Modelled from the spec (section 4.2): the Limit combinator
constructor. -/
def NewLimitJob (n : Nat) (child : Job) : Job := .limit n child

/-- Modelled from the spec (section 4.2): the Timeout combinator
constructor. -/
def NewTimeoutJob (d : Nat) (child : Job) : Job := .timeoutJob d child

/-- Modelled from the spec (section 4.2): the Select (projection)
combinator constructor. -/
def NewSelectJob (path : String) (child : Job) : Job := .selectJob path child

/-- Modelled from the spec (section 4.2): the authorization Filter
combinator constructor. -/
def NewFilterJob (child : Job) : Job := .filterJob child

/-- Modelled from the spec (section 4.2): the Noop job constructor. -/
def NewNoopJob : Job := .noop

/-- Modelled from the spec (section 4.2): the Alert combinator
constructor (the source also stores the search inputs for alert
rendering). -/
def NewAlertJob (child : Job) : Job := .alert child

mutual

/-- Count the nodes of a job tree satisfying a predicate. -/
def countIf (f : Job → Bool) : Job → Nat
  | .repoPager i g ro c => (if f (.repoPager i g ro c) then 1 else 0) + countIf f c
  | .parallel cs => (if f (.parallel cs) then 1 else 0) + countIfList f cs
  | .andJob cs => (if f (.andJob cs) then 1 else 0) + countIfList f cs
  | .orJob cs => (if f (.orJob cs) then 1 else 0) + countIfList f cs
  | .priority r o => (if f (.priority r o) then 1 else 0) + countIf f r + countIf f o
  | .limit n c => (if f (.limit n c) then 1 else 0) + countIf f c
  | .timeoutJob d c => (if f (.timeoutJob d c) then 1 else 0) + countIf f c
  | .selectJob s c => (if f (.selectJob s c) then 1 else 0) + countIf f c
  | .filterJob c => (if f (.filterJob c) then 1 else 0) + countIf f c
  | .alert c => (if f (.alert c) then 1 else 0) + countIf f c
  | j => if f j then 1 else 0

/-- Count over a list of job trees. -/
def countIfList (f : Job → Bool) : List Job → Nat
  | [] => 0
  | j :: js => countIf f j + countIfList f js

end

/-- Whether a job is the ComputeExcludedRepos leaf. -/
def isCER : Job → Bool
  | .computeExcludedRepos _ => true
  | _ => false

/-- Whether a job is the RepoSearch leaf. -/
def isRepoSearchJob : Job → Bool
  | .repoSearch _ _ _ => true
  | _ => false

/-- Whether a job is the StructuralSearch leaf. -/
def isStructuralJob : Job → Bool
  | .structuralSearch _ _ _ _ => true
  | _ => false

/-- Modelled from the spec: searchcontexts.IsGlobalSearchContextSpec, true
for the global context or an unset context spec. -/
def isGlobalSearchContextSpec (v : String) : Bool :=
  v = "" || v = "global"

/-- The query is free of repo-scoping filters and not structural: structural
queries are never global, a context: must be the global context, repo: is
allowed only negated, and repohasfile: is disallowed (the isGlobalSearch
closure of jobMode; the ForAll over the parse tree reduces to a check of
the parameter nodes, since pattern nodes are not query.Parameter values). -/
def isGlobalSearch (b : Basic) (st : SearchType) : Bool :=
  if st = .structural then false
  else b.parameters.all fun p =>
    if p.field = fieldContext then isGlobalSearchContextSpec p.value
    else if p.field = fieldRepo then p.negated
    else if p.field = fieldRepoHasFile then false
    else true

/-- jobMode: decide the global search strategy flags
(repoUniverseSearch, skipRepoSubsetSearch, onlyRunSearcher),
translated from the source. -/
def jobMode (b : Basic) (rt : ResultTypes) (st : SearchType) (onSourcegraphDotCom : Bool) : Bool × Bool × Bool :=
  let hasGlobalSearchResultType := rt.has ((tFile.union tPath).union tSymbol)
  let isIndexedSearch := b.indexValue ≠ .no
  let noPattern := b.patternString = ""
  let noFile := !(b.existsField fieldFile)
  let noLang := !(b.existsField fieldLang)
  let isEmpty := noPattern && noFile && noLang
  let repoUniverseSearch := isGlobalSearch b st && isIndexedSearch && hasGlobalSearchResultType && !isEmpty
  let skipRepoSubsetSearch := isEmpty || (repoUniverseSearch && onSourcegraphDotCom)
  let onlyRunSearcher := repoUniverseSearch && !onSourcegraphDotCom
  (repoUniverseSearch, skipRepoSubsetSearch, onlyRunSearcher)

/-- The field allow-list gating the repository-result leaf. -/
def fieldAllowlist : List String :=
  [fieldRepo, fieldContext, fieldType, fieldDefault, fieldIndex, fieldCount,
   fieldTimeout, fieldFork, fieldArchived, fieldVisibility, fieldCase,
   fieldRepoHasFile, fieldRepoHasCommitAfter, fieldPatternType, fieldSelect]

/-- Every parameter field of the query is on the repo-search allow-list
(the valid closure of ToSearchJob; VisitParameter visits exactly the
parameter nodes). -/
def repoSearchValid (b : Basic) : Bool :=
  b.parameters.all fun p => fieldAllowlist.contains p.field

/-- Running balance check of round parentheses. -/
def parenBalance : List Char → Nat → Bool
  | [], d => d = 0
  | c :: cs, d =>
    if c = '(' then parenBalance cs (d + 1)
    else if c = ')' then (decide (0 < d) && parenBalance cs (d - 1))
    else parenBalance cs d

/-- Modelled from the spec: validity of a repo filter under regexp.Compile.
The source rejects prefixes that fail to compile, e.g. unbalanced groups
such as the stripped "(foo).*?(" the code comment describes; modelled as a
balanced-parenthesis check. -/
def regexpCompileOk (s : String) : Bool := parenBalance s.toList 0

/-- addPatternAsRepoFilter: extend the repo options with the query pattern
as a repo filter when that is safe, translated from the source.  A pattern
containing an at sign is truncated to the part before the first at sign to
avoid confusing downstream repo-at-revision parsing; an empty or invalid
remainder rejects the repo search entirely (second component false, the Go
code returns a zero RepoOptions there). -/
def addPatternAsRepoFilter (pattern : String) (caseSensitive : Bool) (opts : RepoOptions) : RepoOptions × Bool :=
  if pattern = "" then (opts, true)
  else
    let opts := { opts with caseSensitiveRepoFilters := caseSensitive }
    if !(pattern.toList.contains '@') then
      ({ opts with repoFilters := opts.repoFilters ++ [pattern] }, true)
    else
      let pre := pattern.takeWhile (fun c => c ≠ '@')
      if pre ≠ "" then
        if regexpCompileOk pre then
          ({ opts with repoFilters := opts.repoFilters ++ [pre] }, true)
        else (RepoOptions.empty, false)
      else (RepoOptions.empty, false)

/-- The addJob closure of ToSearchJob: append a job to the required or the
optional bucket. -/
def addJob (required : Bool) (j : Job) : List Job × List Job → List Job × List Job
  | (r, o) => if required then (r ++ [j], o) else (r, o ++ [j])

/-- The repoUniverseSearch block of ToSearchJob: the global zoekt text job
and the global symbol job, both required (the DefaultGlobalQueryScope call
of the source constructs backend scoping outside the tree structure). -/
def universeBlock (rus : Bool) (rt : ResultTypes) (pInfo : TextPatternInfo)
    (maxResults : Nat) (repoOptions : RepoOptions) (s : List Job × List Job) : List Job × List Job :=
  if rus then
    let includePrivate := repoOptions.visibility = .priv || repoOptions.visibility = .any
    let s1 :=
      if rt.has (tFile.union tPath) then
        addJob true (.zoektGlobalSearch .text pInfo.fileMatchLimit pInfo.select includePrivate repoOptions) s
      else s
    if rt.has tSymbol then
      addJob true (.repoUniverseSymbolSearch pInfo.fileMatchLimit maxResults repoOptions) s1
    else s1
  else s

/-- The repo-subset text block of ToSearchJob: a repo pager over the zoekt
repo-subset job (unless only searcher runs) and the unindexed searcher,
always required. -/
def textBlock (skip onlyS : Bool) (rt : ResultTypes) (pInfo : TextPatternInfo)
    (useFullDeadline : Bool) (repoOptions : RepoOptions) (cRG : Bool)
    (s : List Job × List Job) : List Job × List Job :=
  if rt.has (tFile.union tPath) && !skip then
    let textSearchJobs :=
      (if !onlyS then [Job.zoektRepoSubsetSearch .text pInfo.fileMatchLimit pInfo.select] else [])
      ++ [Job.searcherTextSearch useFullDeadline]
    addJob true (.repoPager pInfo.index cRG repoOptions (NewParallelJob textSearchJobs)) s
  else s

/-- The repo-subset symbol block of ToSearchJob: required only when the
query waits for everything or symbols are the sole result type. -/
def symbolBlock (skip onlyS : Bool) (rt : ResultTypes) (pInfo : TextPatternInfo)
    (useFullDeadline : Bool) (maxResults : Nat) (repoOptions : RepoOptions) (cRG : Bool)
    (s : List Job × List Job) : List Job × List Job :=
  if rt.has tSymbol && pInfo.pattern ≠ "" && !skip then
    let symbolSearchJobs :=
      (if !onlyS then [Job.zoektSymbolSearch pInfo.fileMatchLimit pInfo.select] else [])
      ++ [Job.searcherSymbolSearch maxResults]
    let required := useFullDeadline || (rt.without tSymbol).isZero
    addJob required (.repoPager pInfo.index cRG repoOptions (NewParallelJob symbolSearchJobs)) s
  else s

/-- The commit and diff block of ToSearchJob: required when the query waits
for everything or the commit or diff type is the sole result type. -/
def commitBlock (b : Basic) (rt : ResultTypes) (useFullDeadline : Bool)
    (fml : Nat) (sub : Bool) (repoOptions : RepoOptions)
    (s : List Job × List Job) : List Job × List Job :=
  if rt.has tCommit || rt.has tDiff then
    let diff := rt.has tDiff
    let required :=
      if useFullDeadline then true
      else if diff then (rt.without tDiff).isZero
      else (rt.without tCommit).isZero
    addJob required
      (.commitSearch diff (b.existsField fieldAfter || b.existsField fieldBefore) fml sub repoOptions) s
  else s

/-- The structural block of ToSearchJob: always required; it reads the
pattern type after the empty-pattern fallback. -/
def structuralBlock (ptAfter : SearchType) (pInfo : TextPatternInfo) (onlyS : Bool)
    (cRG : Bool) (repoOptions : RepoOptions) (s : List Job × List Job) : List Job × List Job :=
  if ptAfter = .structural && pInfo.pattern ≠ "" then
    addJob true (.structuralSearch (!onlyS) pInfo.index cRG repoOptions) s
  else s

/-- The repo-result block of ToSearchJob: gated by the field allow-list and
by successfully folding the pattern into the repo filters; always
required. -/
def repoBlock (b : Basic) (rt : ResultTypes) (pInfo : TextPatternInfo)
    (rus skip useFullDeadline : Bool) (repoOptions : RepoOptions)
    (s : List Job × List Job) : List Job × List Job :=
  if rt.has tRepo then
    if repoSearchValid b then
      match addPatternAsRepoFilter pInfo.pattern b.isCaseSensitive repoOptions with
      | (opts, true) =>
        let mode := if skip then GlobalSearchMode.skipUnindexed
                    else if rus then .zoektGlobalSearch
                    else .defaultMode
        addJob true (.repoSearch mode useFullDeadline opts) s
      | (_, false) => s
    else s
  else s

/-- The final unconditional block of ToSearchJob: ComputeExcludedRepos. -/
def cerBlock (repoOptions : RepoOptions) (s : List Job × List Job) : List Job × List Job :=
  addJob true (.computeExcludedRepos repoOptions) s

/-- The result types ToSearchJob computes from the type: fields, the
pattern string and the pattern type. -/
def resultTypesOf (si : SearchInputs) (b : Basic) : ResultTypes :=
  computeResultTypes (b.stringValues fieldType) b.patternString si.patternType

/-- The pattern info before the empty-pattern fallback. -/
def patternInfoPre (si : SearchInputs) (b : Basic) : TextPatternInfo :=
  toTextPatternInfo b (resultTypesOf si b) si.defaultLimit si.patternType

/-- The search inputs after ToSearchJob's empty-pattern fallback: an empty
pattern resets the pattern type to literal (the source mutates
jargs.SearchInputs through its pointer). -/
def searchInputsAfter (si : SearchInputs) (b : Basic) : SearchInputs :=
  if (patternInfoPre si b).pattern = "" then { si with patternType := .literal } else si

/-- The pattern info after the fallback: an empty pattern clears the
structural flag. -/
def patternInfoOf (si : SearchInputs) (b : Basic) : TextPatternInfo :=
  let p := patternInfoPre si b
  if p.pattern = "" then { p with isStructuralPat := false } else p

/-- useFullDeadline: the searcher uses the full deadline when a timeout: or
count: is set or the protocol is streaming. -/
def useFullDeadlineOf (si : SearchInputs) (b : Basic) : Bool :=
  b.hasTimeout || b.hasCount || si.protocol = .streaming

/-- The repoUniverseSearch flag of jobMode at the inputs ToSearchJob passes
it (result types from the query, pattern type after the empty-pattern
fallback). -/
def rusOf (si : SearchInputs) (b : Basic) : Bool :=
  (jobMode b (resultTypesOf si b) (searchInputsAfter si b).patternType si.onSourcegraphDotCom).1

/-- The skipRepoSubsetSearch flag of jobMode at ToSearchJob's inputs. -/
def skipOf (si : SearchInputs) (b : Basic) : Bool :=
  (jobMode b (resultTypesOf si b) (searchInputsAfter si b).patternType si.onSourcegraphDotCom).2.1

/-- The onlyRunSearcher flag of jobMode at ToSearchJob's inputs. -/
def onlySOf (si : SearchInputs) (b : Basic) : Bool :=
  (jobMode b (resultTypesOf si b) (searchInputsAfter si b).patternType si.onSourcegraphDotCom).2.2

/-- The required and optional job buckets ToSearchJob accumulates, in
source order: the repo-universe block, the repo-subset text and symbol
blocks, the commit block, the structural block, the repo block and the
final ComputeExcludedRepos, threaded through addJob. -/
def searchJobsOf (sub : Bool) (si : SearchInputs) (b : Basic) : List Job × List Job :=
  let maxResults := b.maxResults si.defaultLimit
  let rt := resultTypesOf si b
  let pInfo := patternInfoOf si b
  let si' := searchInputsAfter si b
  let useFullDeadline := useFullDeadlineOf si b
  let repoOptions := toRepoOptions b si
  let rus := rusOf si b
  let skip := skipOf si b
  let onlyS := onlySOf si b
  cerBlock repoOptions
    (repoBlock b rt pInfo rus skip useFullDeadline repoOptions
      (structuralBlock si'.patternType pInfo onlyS b.containsRefGlobs repoOptions
        (commitBlock b rt useFullDeadline pInfo.fileMatchLimit sub repoOptions
          (symbolBlock skip onlyS rt pInfo useFullDeadline maxResults repoOptions b.containsRefGlobs
            (textBlock skip onlyS rt pInfo useFullDeadline repoOptions b.containsRefGlobs
              (universeBlock rus rt pInfo maxResults repoOptions ([], [])))))))

/-- The Priority node ToSearchJob builds: the required bucket and the
optional bucket, each wrapped in Parallel. -/
def priorityOf (sub : Bool) (si : SearchInputs) (b : Basic) : Job :=
  NewPriorityJob
    (NewParallelJob (searchJobsOf sub si b).1)
    (NewParallelJob (searchJobsOf sub si b).2)

/-- ToSearchJob on a basic query: build the two buckets, wrap each in
Parallel, combine with Priority, and wrap in the authorization Filter when
sub-repository permissions are enabled.  The second component is the
updated SearchInputs (the source mutates them through the jargs pointer).
The source's error returns all come from external pattern-compilation
helpers (ToBasicQuery, QueryToZoektQuery, DefaultGlobalQueryScope) that are
not under the provided source tree and, per the spec, fail only on
malformed patterns; they are modelled as total here. -/
def toSearchJobB (sub : Bool) (si : SearchInputs) (b : Basic) : Job × SearchInputs :=
  ((if sub then NewFilterJob (priorityOf sub si b) else priorityOf sub si b),
   searchInputsAfter si b)

/-- The per-operand cap toAndJob applies (the maxTryCount of the source). -/
def maxTryCount : Nat := 40000

mutual

/-- toPatternExpressionJob: compile a pattern expression, translated from
the source.  An operator with no operands is a Noop; And and Or recurse
over the operands; Concat and a bare pattern go through the full
ToSearchJob pipeline; a parameter in pattern position is a Noop.  The
source's unreachable default error corresponds to no constructor here. -/
def toPatternExpressionJob (sub : Bool) (si : SearchInputs) (params : List Param) (cRG : Bool) :
    PatternExpr → Job × SearchInputs
  | .op k ops =>
    match ops with
    | [] => (NewNoopJob, si)
    | pe :: rest =>
      match k with
      | .and => toAndJob sub si params cRG (pe :: rest)
      | .or => toOrJob sub si params cRG (pe :: rest)
      | .concat => toSearchJobB sub si ⟨params, some (.op .concat (pe :: rest)), cRG⟩
  | .pattern v => toSearchJobB sub si ⟨params, some (.pattern v), cRG⟩
  | .param _ => (NewNoopJob, si)

/-- toAndJob: compile each operand and wrap it in a Limit of maxTryCount to
bound memory, then combine with And. -/
def toAndJob (sub : Bool) (si : SearchInputs) (params : List Param) (cRG : Bool)
    (queryOperands : List PatternExpr) : Job × SearchInputs :=
  let (operands, si') := toAndOperands sub si params cRG queryOperands
  (NewAndJob operands, si')

/-- The operand loop of toAndJob, threading the search inputs left to
right. -/
def toAndOperands (sub : Bool) (si : SearchInputs) (params : List Param) (cRG : Bool) :
    List PatternExpr → List Job × SearchInputs
  | [] => ([], si)
  | pe :: rest =>
    let (operand, si') := toPatternExpressionJob sub si params cRG pe
    let (js, si'') := toAndOperands sub si' params cRG rest
    (NewLimitJob maxTryCount operand :: js, si'')

/-- toOrJob: compile each operand and combine directly with Or, with no
cap. -/
def toOrJob (sub : Bool) (si : SearchInputs) (params : List Param) (cRG : Bool)
    (queryOperands : List PatternExpr) : Job × SearchInputs :=
  let (operands, si') := toOrOperands sub si params cRG queryOperands
  (NewOrJob operands, si')

/-- The operand loop of toOrJob, threading the search inputs left to
right. -/
def toOrOperands (sub : Bool) (si : SearchInputs) (params : List Param) (cRG : Bool) :
    List PatternExpr → List Job × SearchInputs
  | [] => ([], si)
  | pe :: rest =>
    let (operand, si') := toPatternExpressionJob sub si params cRG pe
    let (js, si'') := toOrOperands sub si' params cRG rest
    (operand :: js, si'')

end

/-- The inner compilation step of ToEvaluateJob: a plan query without a
pattern goes through ToSearchJob on its parameters alone, one with a
pattern through toPatternExpressionJob. -/
def evalInnerJob (sub : Bool) (si : SearchInputs) (b : Basic) : Job × SearchInputs :=
  match b.pattern with
  | Option.none => toSearchJobB sub si ⟨b.parameters, Option.none, b.containsRefGlobs⟩
  | some pe => toPatternExpressionJob sub si b.parameters b.containsRefGlobs pe

/-- ToEvaluateJob: compile one basic query of the plan and wrap it in the
Select projection (when a select: field is present), the Limit on the
result count and the Timeout, translated from the source. -/
def ToEvaluateJob (sub : Bool) (si : SearchInputs) (b : Basic) : Job × SearchInputs :=
  (NewTimeoutJob (timeoutDuration b)
    (NewLimitJob (b.maxResults si.defaultLimit)
      (if b.selectValue ≠ "" then NewSelectJob b.selectValue (evalInnerJob sub si b).1
       else (evalInnerJob sub si b).1)),
   (evalInnerJob sub si b).2)

/-- The child loop of FromExpandedPlan, threading the search inputs across
the plan's queries. -/
def planChildren (sub : Bool) (si : SearchInputs) : List Basic → List Job × SearchInputs
  | [] => ([], si)
  | q :: rest =>
    let (child, si') := ToEvaluateJob sub si q
    let (cs, si'') := planChildren sub si' rest
    (child :: cs, si'')

/-- FromExpandedPlan: compile every query of the expanded plan and combine
the children under Or inside the terminal Alert wrapper, translated from
the source. -/
def FromExpandedPlan (sub : Bool) (si : SearchInputs) (plan : List Basic) : Job × SearchInputs :=
  (NewAlertJob (NewOrJob (planChildren sub si plan).1), (planChildren sub si plan).2)

/-! The unindexed matcher service (cmd/searcher).  Its implementation is
code of this repository that is not under the provided source tree (only
its test is), so the part the claims touch is modelled from the spec:
the request's pattern-info object carries regex/word/structural flags, and
a structural pattern takes precedence over a literal or regex
interpretation when both are set (spec section 4.3). -/

/-- protocol.PatternInfo of the searcher service, reduced to the fields of
the modelled scenario. -/
structure SearcherPatternInfo where
  pattern : String
  includePatterns : List String
  isStructuralPat : Bool
  isRegExp : Bool
deriving DecidableEq, Repr

/-- The interpretation the searcher gives a pattern. -/
inductive PatInterp where
  | structuralI
  | regexpI
  | literalI
deriving DecidableEq, Repr

/-- Modelled from the spec (section 4.3): the searcher's dispatch on the
pattern flags; the structural flag takes precedence over the regex flag by
design. -/
def chosenInterpretation (p : SearcherPatternInfo) : PatInterp :=
  if p.isStructuralPat then .structuralI
  else if p.isRegExp then .regexpI
  else .literalI

/-- Whether the first character list starts with the second. -/
def charsStartWith : List Char → List Char → Bool
  | _, [] => true
  | [], _ :: _ => false
  | d :: ds, c :: cs => c = d && charsStartWith ds cs

/-- Whether the second character list occurs inside the first. -/
def charsContain (hay needle : List Char) : Bool :=
  match hay with
  | [] => needle.isEmpty
  | _ :: ds => charsStartWith hay needle || charsContain ds needle

/-- Whether one string occurs inside another. -/
def strContains (hay needle : String) : Bool :=
  charsContain hay.toList needle.toList

/-- Split a character list into its newline-separated lines. -/
def splitLinesChars : List Char → List (List Char)
  | [] => [[]]
  | c :: cs =>
    match splitLinesChars cs with
    | [] => [[c]]
    | l :: ls => if c = '\n' then [] :: l :: ls else (c :: l) :: ls

/-- Modelled from the spec: the line numbers (1-based) of a file body whose
lines contain the structural pattern's text; a hole-free structural
pattern matches where its text occurs. -/
def structuralLineMatches (pat : String) (body : String) : List Nat :=
  ((splitLinesChars body.toList).enum.filter fun il => charsContain il.2 pat.toList).map
    fun il => il.1 + 1

/-- Modelled from the spec: under the structural interpretation, include
path patterns are matched literally against the file name, not compiled as
regular expressions. -/
def structuralNameIncluded (includes : List String) (name : String) : Bool :=
  includes.all fun inc => strContains name inc

/-- Modelled from the spec: the structural search over an in-memory file
corpus, returning (path, line) match pairs in corpus order. -/
def searcherStructuralSearch (files : List (String × String)) (p : SearcherPatternInfo) :
    List (String × Nat) :=
  files.foldr
    (fun nb acc =>
      if structuralNameIncluded p.includePatterns nb.1 then
        ((structuralLineMatches p.pattern nb.2).map fun n => (nb.1, n)) ++ acc
      else acc)
    []

/-- The spec's eligibility condition "no repo-scoping filters", in the
spec's words: no positive repo: filter, any context: must be the global
context, and no repohasfile: filter. -/
def noRepoScopingFilters (b : Basic) : Bool :=
  b.parameters.all fun p =>
    if p.field = fieldContext then isGlobalSearchContextSpec p.value
    else if p.field = fieldRepo then p.negated
    else if p.field = fieldRepoHasFile then false
    else true

/-- The spec's full eligibility condition for index-universe search, in the
spec's order (section 4.1): no repo-scoping filters, not structural,
indexed mode allowed, at least one global-searchable result type, and a
non-empty pattern or file: or lang: filter. -/
def specIndexUniverseEligible (b : Basic) (rt : ResultTypes) (st : SearchType) : Bool :=
  noRepoScopingFilters b && !(st = .structural) && (b.indexValue ≠ .no)
  && rt.has ((tFile.union tPath).union tSymbol)
  && (b.patternString ≠ "" || b.existsField fieldFile || b.existsField fieldLang)

/-- The wrapper shape claim C4 asserts, in the claim's words: outermost-in
Alert, Timeout, Limit, then a Select wrapper exactly when the query has a
select: field, then a Filter wrapper exactly when sub-repository
permissions are active. -/
def claimC4Shape (hasSelect subActive : Bool) : Job → Bool
  | .alert (.timeoutJob _ (.limit _ inner)) =>
    let afterSelect : Option Job :=
      match hasSelect, inner with
      | true, .selectJob _ x => some x
      | true, _ => Option.none
      | false, .selectJob _ _ => Option.none
      | false, x => some x
    match afterSelect with
    | Option.none => false
    | some (.filterJob _) => subActive
    | some _ => !subActive
  | _ => false

/-! Explicit contribution lists of each ToSearchJob block, used to state
the required/optional characterization. -/

/-- The jobs the repo-universe block adds (all required). -/
def universeParts (rus : Bool) (rt : ResultTypes) (pInfo : TextPatternInfo)
    (maxResults : Nat) (ro : RepoOptions) : List Job :=
  (if rus && rt.has (tFile.union tPath) then
    [Job.zoektGlobalSearch .text pInfo.fileMatchLimit pInfo.select
      (ro.visibility = .priv || ro.visibility = .any) ro]
   else [])
  ++ (if rus && rt.has tSymbol then
    [Job.repoUniverseSymbolSearch pInfo.fileMatchLimit maxResults ro]
   else [])

/-- The job the repo-subset text block adds (required). -/
def textParts (skip onlyS : Bool) (rt : ResultTypes) (pInfo : TextPatternInfo)
    (ufd : Bool) (ro : RepoOptions) (cRG : Bool) : List Job :=
  if rt.has (tFile.union tPath) && !skip then
    [Job.repoPager pInfo.index cRG ro (NewParallelJob
      ((if !onlyS then [Job.zoektRepoSubsetSearch .text pInfo.fileMatchLimit pInfo.select] else [])
       ++ [Job.searcherTextSearch ufd]))]
  else []

/-- The repo-subset symbol job, shared by the required and optional
contribution lists. -/
def symbolPagerJob (onlyS : Bool) (pInfo : TextPatternInfo) (maxResults : Nat)
    (ro : RepoOptions) (cRG : Bool) : Job :=
  Job.repoPager pInfo.index cRG ro (NewParallelJob
    ((if !onlyS then [Job.zoektSymbolSearch pInfo.fileMatchLimit pInfo.select] else [])
     ++ [Job.searcherSymbolSearch maxResults]))

/-- Whether the repo-subset symbol block adds a job at all. -/
def symbolBranchOn (skip : Bool) (rt : ResultTypes) (pInfo : TextPatternInfo) : Bool :=
  rt.has tSymbol && pInfo.pattern ≠ "" && !skip

/-- Whether the symbol job is required: the query waits for everything or
symbols are the sole requested type. -/
def symbolRequired (ufd : Bool) (rt : ResultTypes) : Bool :=
  ufd || (rt.without tSymbol).isZero

/-- The required contribution of the symbol block. -/
def symbolReqParts (skip onlyS : Bool) (rt : ResultTypes) (pInfo : TextPatternInfo)
    (ufd : Bool) (maxResults : Nat) (ro : RepoOptions) (cRG : Bool) : List Job :=
  if symbolBranchOn skip rt pInfo && symbolRequired ufd rt then
    [symbolPagerJob onlyS pInfo maxResults ro cRG]
  else []

/-- The optional contribution of the symbol block. -/
def symbolOptParts (skip onlyS : Bool) (rt : ResultTypes) (pInfo : TextPatternInfo)
    (ufd : Bool) (maxResults : Nat) (ro : RepoOptions) (cRG : Bool) : List Job :=
  if symbolBranchOn skip rt pInfo && !symbolRequired ufd rt then
    [symbolPagerJob onlyS pInfo maxResults ro cRG]
  else []

/-- The commit/diff job of the commit block. -/
def commitJobOf (b : Basic) (rt : ResultTypes) (fml : Nat) (sub : Bool)
    (ro : RepoOptions) : Job :=
  Job.commitSearch (rt.has tDiff) (b.existsField fieldAfter || b.existsField fieldBefore) fml sub ro

/-- Whether the commit block adds a job at all. -/
def commitBranchOn (rt : ResultTypes) : Bool :=
  rt.has tCommit || rt.has tDiff

/-- Whether the commit/diff job is required: the query waits for everything
or the diff (respectively commit) type is the sole requested type. -/
def commitRequired (ufd : Bool) (rt : ResultTypes) : Bool :=
  if ufd then true
  else if rt.has tDiff then (rt.without tDiff).isZero
  else (rt.without tCommit).isZero

/-- The required contribution of the commit block. -/
def commitReqParts (b : Basic) (rt : ResultTypes) (ufd : Bool) (fml : Nat)
    (sub : Bool) (ro : RepoOptions) : List Job :=
  if commitBranchOn rt && commitRequired ufd rt then [commitJobOf b rt fml sub ro] else []

/-- The optional contribution of the commit block. -/
def commitOptParts (b : Basic) (rt : ResultTypes) (ufd : Bool) (fml : Nat)
    (sub : Bool) (ro : RepoOptions) : List Job :=
  if commitBranchOn rt && !commitRequired ufd rt then [commitJobOf b rt fml sub ro] else []

/-- The job the structural block adds (required). -/
def structuralParts (ptAfter : SearchType) (pInfo : TextPatternInfo) (onlyS : Bool)
    (cRG : Bool) (ro : RepoOptions) : List Job :=
  if ptAfter = .structural && pInfo.pattern ≠ "" then
    [Job.structuralSearch (!onlyS) pInfo.index cRG ro]
  else []

/-- The job the repo block adds (required). -/
def repoParts (b : Basic) (rt : ResultTypes) (pInfo : TextPatternInfo)
    (rus skip ufd : Bool) (ro : RepoOptions) : List Job :=
  if rt.has tRepo then
    if repoSearchValid b then
      match addPatternAsRepoFilter pInfo.pattern b.isCaseSensitive ro with
      | (opts, true) =>
        [Job.repoSearch
          (if skip then .skipUnindexed else if rus then .zoektGlobalSearch else .defaultMode)
          ufd opts]
      | (_, false) => []
    else []
  else []

/-- The full required bucket of ToSearchJob, block by block in source
order, ending with ComputeExcludedRepos. -/
def requiredOf (sub : Bool) (si : SearchInputs) (b : Basic) : List Job :=
  universeParts (rusOf si b) (resultTypesOf si b) (patternInfoOf si b) (b.maxResults si.defaultLimit) (toRepoOptions b si)
  ++ textParts (skipOf si b) (onlySOf si b) (resultTypesOf si b) (patternInfoOf si b) (useFullDeadlineOf si b) (toRepoOptions b si) b.containsRefGlobs
  ++ symbolReqParts (skipOf si b) (onlySOf si b) (resultTypesOf si b) (patternInfoOf si b) (useFullDeadlineOf si b) (b.maxResults si.defaultLimit) (toRepoOptions b si) b.containsRefGlobs
  ++ commitReqParts b (resultTypesOf si b) (useFullDeadlineOf si b) (patternInfoOf si b).fileMatchLimit sub (toRepoOptions b si)
  ++ structuralParts (searchInputsAfter si b).patternType (patternInfoOf si b) (onlySOf si b) b.containsRefGlobs (toRepoOptions b si)
  ++ repoParts b (resultTypesOf si b) (patternInfoOf si b) (rusOf si b) (skipOf si b) (useFullDeadlineOf si b) (toRepoOptions b si)
  ++ [Job.computeExcludedRepos (toRepoOptions b si)]

/-- The full optional bucket of ToSearchJob: only the symbol and the
commit/diff jobs can be optional. -/
def optionalOf (sub : Bool) (si : SearchInputs) (b : Basic) : List Job :=
  symbolOptParts (skipOf si b) (onlySOf si b) (resultTypesOf si b) (patternInfoOf si b) (useFullDeadlineOf si b) (b.maxResults si.defaultLimit) (toRepoOptions b si) b.containsRefGlobs
  ++ commitOptParts b (resultTypesOf si b) (useFullDeadlineOf si b) (patternInfoOf si b).fileMatchLimit sub (toRepoOptions b si)

/-- Whether a job is an Alert directly over an Or node, the shape
FromExpandedPlan actually produces at the top. -/
def alertOverOr : Job → Bool
  | .alert (.orJob _) => true
  | _ => false

/-- Whether a job has the evaluation-child shape: a Timeout directly over a
Limit. -/
def isEvalShape : Job → Bool
  | .timeoutJob _ (.limit _ _) => true
  | _ => false

/-! Concrete inputs used by the counterexamples and witnesses below. -/

/-- Batch-protocol search inputs with literal pattern type, default limit
30, off sourcegraph.com. -/
def siBatch : SearchInputs :=
  ⟨.literal, .batch, false, 30, Option.none, Option.none, Option.none⟩

/-- Structural-pattern search inputs, otherwise as siBatch. -/
def siStruct : SearchInputs :=
  ⟨.structural, .batch, false, 30, Option.none, Option.none, Option.none⟩

/-- The query type:file type:commit foo: its file result type is not the
sole requested type and it has no timeout: or count:. -/
def bFileCommit : Basic :=
  ⟨[⟨fieldType, "file", false⟩, ⟨fieldType, "commit", false⟩], some (.pattern "foo"), false⟩

/-- The empty query: no parameters and no pattern. -/
def bEmptyQ : Basic := ⟨[], Option.none, false⟩

/-- A one-word pattern query. -/
def bAlpha : Basic := ⟨[], some (.pattern "alpha"), false⟩

/-- Another one-word pattern query. -/
def bBeta : Basic := ⟨[], some (.pattern "beta"), false⟩

/-- A repo-type query carrying a file: field, which is outside the
repo-search allow-list. -/
def bDisallowed : Basic :=
  ⟨[⟨fieldType, "repo", false⟩, ⟨fieldFile, "foo", false⟩], some (.pattern "p"), false⟩

/-- A structural query whose pattern set is empty. -/
def bStructEmpty : Basic := ⟨[], Option.none, false⟩

/-- The searcher test corpus of the modelled scenario (the binary
milton.png and the symlink of the service's test add nothing to the
structural scenario and are left out). -/
def searcherTestFiles : List (String × String) :=
  [("README.md", "# Hello World\n\nHello world example in go"),
   ("file++.plus", "filename contains regex metachars"),
   ("main.go", "package main\n\nimport \"fmt\"\n\nfunc main() \x7b\n\tfmt.Println(\"Hello world\")\n\x7d\n"),
   ("abc.txt", "w")]

/-- The request of the modelled scenario: a structural pattern with the
regex flag also set, scoped to the file whose name contains regex
metacharacters. -/
def structuralOverRegexInfo : SearcherPatternInfo :=
  ⟨"filename contains regex metachars", ["file++.plus"], true, true⟩

/-! Characterization of the buckets: each block appends its required
contribution to the first component and its optional contribution to the
second. -/

theorem addJob_eq (req : Bool) (j : Job) (r o : List Job) :
    addJob req j (r, o) = (r ++ (if req then [j] else []), o ++ (if req then [] else [j])) := by
  cases req <;> simp [addJob]

theorem universeBlock_eq (rus : Bool) (rt : ResultTypes) (pInfo : TextPatternInfo)
    (m : Nat) (ro : RepoOptions) (r o : List Job) :
    universeBlock rus rt pInfo m ro (r, o) = (r ++ universeParts rus rt pInfo m ro, o) := by
  cases rus <;> cases h1 : rt.has (tFile.union tPath) <;> cases h2 : rt.has tSymbol <;>
    simp [universeBlock, universeParts, addJob, h1, h2]

theorem textBlock_eq (skip onlyS : Bool) (rt : ResultTypes) (pInfo : TextPatternInfo)
    (ufd : Bool) (ro : RepoOptions) (cRG : Bool) (r o : List Job) :
    textBlock skip onlyS rt pInfo ufd ro cRG (r, o)
      = (r ++ textParts skip onlyS rt pInfo ufd ro cRG, o) := by
  cases h1 : (rt.has (tFile.union tPath) && !skip) <;>
    simp [textBlock, textParts, addJob, h1]

theorem symbolBlock_eq (skip onlyS : Bool) (rt : ResultTypes) (pInfo : TextPatternInfo)
    (ufd : Bool) (m : Nat) (ro : RepoOptions) (cRG : Bool) (r o : List Job) :
    symbolBlock skip onlyS rt pInfo ufd m ro cRG (r, o)
      = (r ++ symbolReqParts skip onlyS rt pInfo ufd m ro cRG,
         o ++ symbolOptParts skip onlyS rt pInfo ufd m ro cRG) := by
  cases hs : rt.has tSymbol <;> by_cases hp : pInfo.pattern = "" <;> cases skip <;>
    cases ufd <;> cases hz : (rt.without tSymbol).isZero <;>
      simp [symbolBlock, symbolReqParts, symbolOptParts, symbolBranchOn, symbolRequired,
            symbolPagerJob, addJob, hs, hp, hz]

theorem commitBlock_eq (b : Basic) (rt : ResultTypes) (ufd : Bool) (fml : Nat)
    (sub : Bool) (ro : RepoOptions) (r o : List Job) :
    commitBlock b rt ufd fml sub ro (r, o)
      = (r ++ commitReqParts b rt ufd fml sub ro, o ++ commitOptParts b rt ufd fml sub ro) := by
  cases hc : rt.has tCommit <;> cases hd : rt.has tDiff <;> cases ufd <;>
    cases hz1 : (rt.without tDiff).isZero <;> cases hz2 : (rt.without tCommit).isZero <;>
      simp [commitBlock, commitReqParts, commitOptParts, commitBranchOn, commitJobOf,
            commitRequired, addJob, hc, hd, hz1, hz2]

theorem structuralBlock_eq (ptAfter : SearchType) (pInfo : TextPatternInfo) (onlyS : Bool)
    (cRG : Bool) (ro : RepoOptions) (r o : List Job) :
    structuralBlock ptAfter pInfo onlyS cRG ro (r, o)
      = (r ++ structuralParts ptAfter pInfo onlyS cRG ro, o) := by
  unfold structuralBlock structuralParts
  split_ifs <;> simp [addJob]

theorem repoBlock_eq (b : Basic) (rt : ResultTypes) (pInfo : TextPatternInfo)
    (rus skip ufd : Bool) (ro : RepoOptions) (r o : List Job) :
    repoBlock b rt pInfo rus skip ufd ro (r, o)
      = (r ++ repoParts b rt pInfo rus skip ufd ro, o) := by
  rcases h : addPatternAsRepoFilter pInfo.pattern b.isCaseSensitive ro with ⟨opts, ok⟩
  cases h1 : rt.has tRepo <;> cases h2 : repoSearchValid b <;> cases ok <;>
    simp [repoBlock, repoParts, addJob, h, h1, h2]

theorem cerBlock_eq (ro : RepoOptions) (r o : List Job) :
    cerBlock ro (r, o) = (r ++ [Job.computeExcludedRepos ro], o) := by
  simp [cerBlock, addJob]

/-- The buckets of ToSearchJob are exactly the block contributions in
source order; in particular the optional bucket holds exactly the
non-required symbol and commit/diff jobs. -/
theorem searchJobsOf_eq (sub : Bool) (si : SearchInputs) (b : Basic) :
    searchJobsOf sub si b = (requiredOf sub si b, optionalOf sub si b) := by
  simp only [searchJobsOf, requiredOf, optionalOf]
  rw [universeBlock_eq, textBlock_eq, symbolBlock_eq, commitBlock_eq, structuralBlock_eq,
      repoBlock_eq, cerBlock_eq]
  simp [List.append_assoc]

/-! Counting helpers. -/

theorem countIfList_append (f : Job → Bool) (xs ys : List Job) :
    countIfList f (xs ++ ys) = countIfList f xs + countIfList f ys := by
  induction xs with
  | nil => simp [countIfList]
  | cons j js ih => simp [countIfList, ih, Nat.add_assoc]

theorem countIfList_ite (f : Job → Bool) (c : Prop) [Decidable c] (j : Job) :
    countIfList f (if c then [j] else []) = if c then countIf f j else 0 := by
  split_ifs <;> simp [countIfList]

theorem countIfList_push (f : Job → Bool) (c : Prop) [Decidable c] (xs ys : List Job) :
    countIfList f (if c then xs else ys)
      = if c then countIfList f xs else countIfList f ys := by
  split_ifs <;> rfl

/-- The count of leaves in a compiled ToSearchJob tree is the count over
the two buckets, for a predicate not holding on the wrapping
combinators. -/
theorem countIf_toSearchJobB (f : Job → Bool) (sub : Bool) (si : SearchInputs) (b : Basic)
    (hfil : ∀ c, f (Job.filterJob c) = false)
    (hpri : ∀ r o, f (Job.priority r o) = false)
    (hpar : ∀ cs, f (Job.parallel cs) = false) :
    countIf f (toSearchJobB sub si b).1 =
      countIfList f (requiredOf sub si b) + countIfList f (optionalOf sub si b) := by
  cases sub <;>
    simp [toSearchJobB, priorityOf, NewFilterJob, NewPriorityJob, NewParallelJob,
          searchJobsOf_eq, countIf, hfil, hpri, hpar]

/-- Shared helper for C4: every child FromExpandedPlan collects has the
Timeout-over-Limit shape. -/
theorem planChildren_all_evalShape (sub : Bool) (plan : List Basic) :
    ∀ si, ((planChildren sub si plan).1.all isEvalShape) = true := by
  induction plan with
  | nil => intro si; simp [planChildren]
  | cons q rest ih =>
    intro si
    rcases h1 : ToEvaluateJob sub si q with ⟨c, s⟩
    have hc : isEvalShape c = true := by
      have hcq : c = (ToEvaluateJob sub si q).1 := by rw [h1]
      rw [hcq]; simp [ToEvaluateJob, isEvalShape, NewTimeoutJob, NewLimitJob]
    rcases h2 : planChildren sub s rest with ⟨cs, s2⟩
    have ih' := ih s
    rw [h2] at ih'
    simp [planChildren, h1, h2, hc, ih']

/-- Shared helper for C3: compiling And operands gives exactly the Or
operand compilation with every job wrapped in the fixed Limit, with the
same threading of the search inputs. -/
theorem toAndOperands_eq (sub : Bool) (params : List Param) (cRG : Bool) (ops : List PatternExpr) :
    ∀ si, toAndOperands sub si params cRG ops =
      ((toOrOperands sub si params cRG ops).1.map (NewLimitJob maxTryCount),
       (toOrOperands sub si params cRG ops).2) := by
  induction ops with
  | nil => intro si; simp [toAndOperands, toOrOperands]
  | cons pe rest ih =>
    intro si
    rcases h1 : toPatternExpressionJob sub si params cRG pe with ⟨j, s⟩
    rcases h2 : toOrOperands sub s params cRG rest with ⟨js, s2⟩
    have ih' := ih s
    rw [h2] at ih'
    simp [toAndOperands, toOrOperands, h1, h2, ih']

/-! The claims. -/

/-- C1 (counterexample): the claim "a job is optional exactly when the
query has no explicit timeout/count and its result type is not the only
type requested" is false on the code.  For the query type:file type:commit
foo (no timeout:, no count:, batch protocol) the file result type is not
the sole requested type, yet the per-repo text job (and the global text
job) sits in the required bucket; only the commit job is optional. -/
theorem c1_required_optional_counterexample :
    useFullDeadlineOf siBatch bFileCommit = false
    ∧ ((resultTypesOf siBatch bFileCommit).without (tFile.union tPath)).isZero = false
    ∧ (searchJobsOf false siBatch bFileCommit).1 =
        [Job.zoektGlobalSearch .text 30 "" true (toRepoOptions bFileCommit siBatch),
         Job.repoPager .yes false (toRepoOptions bFileCommit siBatch)
           (NewParallelJob [Job.searcherTextSearch false]),
         Job.computeExcludedRepos (toRepoOptions bFileCommit siBatch)]
    ∧ (searchJobsOf false siBatch bFileCommit).2 =
        [Job.commitSearch false false 30 false (toRepoOptions bFileCommit siBatch)] :=
  ⟨rfl, rfl, rfl, rfl⟩

/-- C1 (amended): the required bucket always holds the global text and
symbol jobs, the per-repo text job, the structural job, the repo job and
ComputeExcludedRepos whenever their branches fire; only the per-repo
symbol job and the commit/diff job can be optional, and each is optional
exactly when the query lacks an explicit timeout/count, is not streaming,
and its result type is not the sole requested type. -/
theorem c1_bucket_partition (sub : Bool) (si : SearchInputs) (b : Basic) :
    (searchJobsOf sub si b).1 = requiredOf sub si b
    ∧ (searchJobsOf sub si b).2 =
        symbolOptParts (skipOf si b) (onlySOf si b) (resultTypesOf si b) (patternInfoOf si b)
          (useFullDeadlineOf si b) (b.maxResults si.defaultLimit) (toRepoOptions b si)
          b.containsRefGlobs
        ++ commitOptParts b (resultTypesOf si b) (useFullDeadlineOf si b)
          (patternInfoOf si b).fileMatchLimit sub (toRepoOptions b si) := by
  rw [searchJobsOf_eq]
  exact ⟨rfl, rfl⟩

/-- C2 (counterexample): the claim "every query with no repository-scoping
filters, a globally searchable result type and indexed mode not disabled
selects index-universe search" is false on the code: the empty query
satisfies all three premises but jobMode returns repoUniverseSearch =
false, because the query has an empty pattern/file/lang filter. -/
theorem c2_empty_query_counterexample :
    noRepoScopingFilters bEmptyQ = true
    ∧ (resultTypesOf siBatch bEmptyQ).has ((tFile.union tPath).union tSymbol) = true
    ∧ bEmptyQ.indexValue ≠ .no
    ∧ (jobMode bEmptyQ (resultTypesOf siBatch bEmptyQ) .literal false).1 = false :=
  ⟨rfl, rfl, by decide, rfl⟩

/-- C2 (amended): jobMode selects index-universe search exactly under the
spec's full eligibility conditions: no repo-scoping filters, not
structural, indexed mode allowed, at least one global-searchable result
type, and a non-empty pattern/file/lang filter. -/
theorem c2_repo_universe_eligibility (b : Basic) (rt : ResultTypes) (st : SearchType)
    (dotcom : Bool) :
    (jobMode b rt st dotcom).1 = specIndexUniverseEligible b rt st := by
  by_cases hst : st = SearchType.structural <;>
    simp [jobMode, specIndexUniverseEligible, isGlobalSearch, noRepoScopingFilters, hst,
          Bool.not_and, Bool.not_not, Bool.or_assoc, Bool.and_assoc, decide_not]

/-- C3: compiling an And pattern wraps each compiled operand in a Limit of
40,000 before combining under And, while compiling an Or pattern combines
the compiled operands directly under Or with no Limit wrapper; the operand
compilations agree between the two cases. -/
theorem c3_and_limit_or_unlimited (sub : Bool) (si : SearchInputs) (params : List Param)
    (cRG : Bool) (pe : PatternExpr) (rest : List PatternExpr) :
    toPatternExpressionJob sub si params cRG (.op .and (pe :: rest)) =
      (NewAndJob ((toOrOperands sub si params cRG (pe :: rest)).1.map (NewLimitJob maxTryCount)),
       (toOrOperands sub si params cRG (pe :: rest)).2)
    ∧ toPatternExpressionJob sub si params cRG (.op .or (pe :: rest)) =
      (NewOrJob (toOrOperands sub si params cRG (pe :: rest)).1,
       (toOrOperands sub si params cRG (pe :: rest)).2)
    ∧ maxTryCount = 40000 := by
  refine ⟨?_, ?_, rfl⟩
  · rcases h : toOrOperands sub si params cRG (pe :: rest) with ⟨js, s⟩
    simp [toPatternExpressionJob, toAndJob, toAndOperands_eq, h]
  · rcases h : toOrOperands sub si params cRG (pe :: rest) with ⟨js, s⟩
    simp [toPatternExpressionJob, toOrJob, h]

/-- C4 (counterexample): the claim that the compiled tree is wrapped
outermost-in as Alert(Timeout(Limit(Select?(Filter?(tree))))) is false on
the code: for the two-query plan alpha, beta (no select: field, sub-repo
permissions off) the node under Alert is the Or over the plan's children,
not a Timeout. -/
theorem c4_wrapper_counterexample :
    claimC4Shape false false (FromExpandedPlan false siBatch [bAlpha, bBeta]).1 = false
    ∧ alertOverOr (FromExpandedPlan false siBatch [bAlpha, bBeta]).1 = true
    ∧ bAlpha.selectValue = "" ∧ bBeta.selectValue = "" :=
  ⟨rfl, rfl, rfl, rfl⟩

/-- C4 (amended): FromExpandedPlan produces Alert(Or(children)) with one
child per plan query; each child is Timeout(Limit(Select?(inner))) with
Select present exactly when that query has a select: field; and the
authorization Filter wrapper is applied inside ToSearchJob, around its
Priority node, exactly when sub-repository permissions are active. -/
theorem c4_wrapper_structure (sub : Bool) (si : SearchInputs) (plan : List Basic) :
    (FromExpandedPlan sub si plan).1 = NewAlertJob (NewOrJob (planChildren sub si plan).1)
    ∧ ((planChildren sub si plan).1.all isEvalShape) = true
    ∧ (∀ si₀ b, ToEvaluateJob sub si₀ b =
        (NewTimeoutJob (timeoutDuration b) (NewLimitJob (b.maxResults si₀.defaultLimit)
          (if b.selectValue ≠ "" then NewSelectJob b.selectValue (evalInnerJob sub si₀ b).1
           else (evalInnerJob sub si₀ b).1)), (evalInnerJob sub si₀ b).2))
    ∧ (∀ si₀ b, (toSearchJobB sub si₀ b).1 =
        (if sub then NewFilterJob (priorityOf sub si₀ b) else priorityOf sub si₀ b)) :=
  ⟨rfl, planChildren_all_evalShape sub plan si, fun _ _ => rfl, fun _ _ => rfl⟩

/-- C5: if any field of the query is outside the repo-search allow-list, no
RepoSearch leaf occurs anywhere in the compiled tree (and compilation
still succeeds, the compiler being total: the skip is silent). -/
theorem c5_repo_allowlist_gate (sub : Bool) (si : SearchInputs) (b : Basic)
    (h : repoSearchValid b = false) :
    countIf isRepoSearchJob (toSearchJobB sub si b).1 = 0 := by
  rw [countIf_toSearchJobB isRepoSearchJob sub si b (fun _ => rfl) (fun _ _ => rfl) (fun _ => rfl)]
  simp [requiredOf, optionalOf, countIfList_append, countIfList_ite, universeParts, textParts,
        symbolReqParts, symbolOptParts, commitReqParts, commitOptParts, structuralParts,
        repoParts, h, symbolPagerJob, commitJobOf, NewParallelJob, countIf, countIfList,
        isRepoSearchJob]

/-- C5 (witness): the query type:repo file:foo p carries the disallowed
field file:, and its compiled tree has no RepoSearch leaf. -/
theorem c5_repo_allowlist_gate_witness :
    repoSearchValid bDisallowed = false
    ∧ countIf isRepoSearchJob (toSearchJobB false siBatch bDisallowed).1 = 0 :=
  ⟨rfl, c5_repo_allowlist_gate false siBatch bDisallowed rfl⟩

/-- C6: a structural query whose computed pattern string is empty does not
fail: the pattern type is reset to literal, the structural flag is
cleared, and the compiled tree contains no structural job (the compiler is
total, so compilation proceeds). -/
theorem c6_empty_pattern_fallback (sub : Bool) (si : SearchInputs) (b : Basic)
    (hp : b.patternString = "") (_hst : si.patternType = SearchType.structural) :
    (toSearchJobB sub si b).2.patternType = .literal
    ∧ (patternInfoOf si b).isStructuralPat = false
    ∧ countIf isStructuralJob (toSearchJobB sub si b).1 = 0 := by
  have hpre : (patternInfoPre si b).pattern = "" := by
    simp [patternInfoPre, toTextPatternInfo, hp]
  have hpat : (patternInfoOf si b).pattern = "" := by
    simp [patternInfoOf, hpre]
  refine ⟨?_, ?_, ?_⟩
  · simp [toSearchJobB, searchInputsAfter, hpre]
  · simp [patternInfoOf, hpre]
  · rw [countIf_toSearchJobB isStructuralJob sub si b (fun _ => rfl) (fun _ _ => rfl) (fun _ => rfl)]
    simp [requiredOf, optionalOf, countIfList_append, countIfList_ite, countIfList_push,
          universeParts, textParts, symbolReqParts, symbolOptParts, commitReqParts,
          commitOptParts, structuralParts, repoParts, hpat, addPatternAsRepoFilter,
          symbolPagerJob, commitJobOf, NewParallelJob, countIf, countIfList, isStructuralJob]

/-- C6 (witness): the empty structural query falls back to literal with no
structural job. -/
theorem c6_empty_pattern_fallback_witness :
    (toSearchJobB false siStruct bStructEmpty).2.patternType = .literal
    ∧ (patternInfoOf siStruct bStructEmpty).isStructuralPat = false
    ∧ countIf isStructuralJob (toSearchJobB false siStruct bStructEmpty).1 = 0 :=
  c6_empty_pattern_fallback false siStruct bStructEmpty rfl rfl

/-- C7: with both the structural and the regex flag set, the structural
interpretation wins, and the scenario's pattern matches the file
file++.plus at line 1 instead of failing or being read as a regex. -/
theorem c7_structural_precedence :
    structuralOverRegexInfo.isRegExp = true
    ∧ chosenInterpretation structuralOverRegexInfo = .structuralI
    ∧ searcherStructuralSearch searcherTestFiles structuralOverRegexInfo
        = [("file++.plus", 1)] :=
  ⟨rfl, rfl, by decide⟩

/-- C8: compilation is deterministic: two runs of FromExpandedPlan on the
same plan and the same explicit inputs yield the same tree.  In this
embedding the process-global state the source consults (the sub-repo
permission checker, feature flags, user settings) is an explicit immutable
parameter, as the spec's design notes direct, so compilation is a pure
function. -/
theorem c8_deterministic (sub : Bool) (si : SearchInputs) (plan : List Basic)
    (r1 r2 : Job × SearchInputs)
    (h1 : FromExpandedPlan sub si plan = r1) (h2 : FromExpandedPlan sub si plan = r2) :
    r1 = r2 :=
  h1.symm.trans h2

/-- C8 (witness): two runs on the one-query plan alpha agree. -/
theorem c8_deterministic_witness :
    FromExpandedPlan false siBatch [bAlpha] = FromExpandedPlan false siBatch [bAlpha] :=
  c8_deterministic false siBatch [bAlpha] _ _ rfl rfl

/-- C9: every compiled ToSearchJob tree has a non-empty required bucket
containing the ComputeExcludedRepos job, and contains exactly one
ComputeExcludedRepos leaf, independent of result types, strategy flags or
pattern content. -/
theorem c9_compute_excluded_invariant (sub : Bool) (si : SearchInputs) (b : Basic) :
    (searchJobsOf sub si b).1 ≠ []
    ∧ Job.computeExcludedRepos (toRepoOptions b si) ∈ (searchJobsOf sub si b).1
    ∧ countIf isCER (toSearchJobB sub si b).1 = 1 := by
  refine ⟨?_, ?_, ?_⟩
  · rw [searchJobsOf_eq]
    simp [requiredOf]
  · rw [searchJobsOf_eq]
    simp [requiredOf]
  · rw [countIf_toSearchJobB isCER sub si b (fun _ => rfl) (fun _ _ => rfl) (fun _ => rfl)]
    rcases hrp : addPatternAsRepoFilter (patternInfoOf si b).pattern b.isCaseSensitive
        (toRepoOptions b si) with ⟨opts, ok⟩
    cases ok <;>
      simp [requiredOf, optionalOf, countIfList_append, countIfList_ite, countIfList_push,
            universeParts, textParts, symbolReqParts, symbolOptParts, commitReqParts,
            commitOptParts, structuralParts, repoParts, hrp, symbolPagerJob, commitJobOf,
            NewParallelJob, countIf, countIfList, isCER]

/-- C10: ToSearchJob updates its input SearchInputs in exactly one case:
an empty computed pattern resets the pattern type to literal; with a
non-empty pattern the SearchInputs come back unchanged in every field. -/
theorem c10_mutation_frame (sub : Bool) (si : SearchInputs) (b : Basic) :
    (toSearchJobB sub si b).2 =
      (if b.patternString = "" then { si with patternType := SearchType.literal } else si) := by
  simp [toSearchJobB, searchInputsAfter, patternInfoPre, toTextPatternInfo]

end SearchJob
